import Mathlib

/-!
Shallow embedding of the small-biz finance tracker's accounting, validation
and spreadsheet-sync logic, together with proofs of its stated properties.

Sources embedded:
* `src/App.tsx` — settings, transactions/expenses, derived inventory triple,
  `financialData`, `chartData`, `handleAddSale`, `SaleModal.handleSubmit`,
  `EditLogModal.handleSubmit`.
* `src/ProductModal.tsx` — `validateForm`.
* `src/services/googleSheetsService.ts` — `logEntryToRow`,
  `initializeSpreadsheet`, `syncAllData`, `readAllData` (the row-parsing
  logic is identical in `src/services/simpleGoogleSheetsService.ts`).

Modelling conventions: JavaScript numbers are embedded as exact rationals
(`ℚ`) — the code applies no rounding of its own; `parseInt` results are
`Int`.  Host primitives (`parseFloat`, `parseInt`, `Date` parsing and
formatting, fresh-id generation) are uninterpreted function parameters
gathered in `JsEnv`; `none` models a `NaN`/invalid result.  A possibly
`undefined` string (array destructuring past the end of a row) is
`Option String`.  The remote spreadsheet is a list of rows of strings, with
`clear` and `append` as in the transport adapter.
-/

/-- Model of JavaScript's `String.prototype.trim()`: drop whitespace at
both ends.  (Structurally computable stand-in for `String.trim`, whose
`Substring` implementation does not reduce in the kernel.) -/
def jsTrim (s : String) : String :=
  ⟨((s.data.dropWhile Char.isWhitespace).reverse.dropWhile Char.isWhitespace).reverse⟩

namespace FinanceTracker

/-- The `SettingsType` interface from `src/App.tsx`. -/
structure SettingsType where
  initialInvestment : ℚ
  watchCost : ℚ
  watchPrice : ℚ
deriving DecidableEq

/-- The `Transaction` interface from `src/App.tsx` (type discriminator `'sale'` implicit). -/
structure Transaction where
  id : String
  date : String
  amount : ℚ
  quantity : Int
  description : String
deriving DecidableEq

/-- The `Expense` interface from `src/App.tsx` (type discriminator `'expense'` implicit). -/
structure Expense where
  id : String
  date : String
  amount : ℚ
  description : String
deriving DecidableEq

/-- The union `CombinedLogItem = Transaction | Expense` from `src/App.tsx`. -/
inductive CombinedLogItem where
  | sale (tx : Transaction)
  | expense (ex : Expense)
deriving DecidableEq

/-- The `date` field of either variant. -/
def CombinedLogItem.date : CombinedLogItem → String
  | .sale tx => tx.date
  | .expense ex => ex.date

/-- The `SaleData` interface from `src/App.tsx`. -/
structure SaleData where
  quantity : Int
  description : String
deriving DecidableEq

/-- The `useMemo` at `src/App.tsx:278-284`: derived
`{initialWatches, watchesSold, inventory}`.  Returns `(0,0,0)` when
`watchCost <= 0`; otherwise `initialWatches = floor(initialInvestment /
watchCost)`, `watchesSold = Σ quantity`, `inventory = initialWatches -
watchesSold`. -/
def inventoryTriple (s : SettingsType) (txs : List Transaction) : Int × Int × Int :=
  if s.watchCost ≤ 0 then (0, 0, 0)
  else
    let initialWatches : Int := Int.floor (s.initialInvestment / s.watchCost)
    let watchesSold : Int := txs.foldl (fun acc tx => acc + tx.quantity) 0
    (initialWatches, watchesSold, initialWatches - watchesSold)

/-- First component of the derived triple. -/
def initialWatches (s : SettingsType) (txs : List Transaction) : Int :=
  (inventoryTriple s txs).1

/-- Second component of the derived triple. -/
def watchesSold (s : SettingsType) (txs : List Transaction) : Int :=
  (inventoryTriple s txs).2.1

/-- Third component of the derived triple. -/
def inventory (s : SettingsType) (txs : List Transaction) : Int :=
  (inventoryTriple s txs).2.2

/-- Result record of the `financialData` memo at `src/App.tsx:330-340`. -/
structure FinancialData where
  totalSales : ℚ
  totalExpenses : ℚ
  cogs : ℚ
  grossProfit : ℚ
  netProfit : ℚ
  roi : ℚ
  profitMargin : ℚ
deriving DecidableEq

/-- The `financialData` memo at `src/App.tsx:330-340`, verbatim over ℚ. -/
def financialData (s : SettingsType) (txs : List Transaction)
    (exps : List Expense) : FinancialData :=
  let totalSales := txs.foldl (fun acc tx => acc + tx.amount) 0
  let totalExpenses := exps.foldl (fun acc ex => acc + ex.amount) 0
  let cogs := (watchesSold s txs : ℚ) * s.watchCost
  let grossProfit := totalSales - cogs
  let netProfit := grossProfit - totalExpenses - s.initialInvestment
  let roi := if s.initialInvestment > 0 then netProfit / s.initialInvestment * 100 else 0
  let profitMargin := if totalSales > 0 then grossProfit / totalSales * 100 else 0
  ⟨totalSales, totalExpenses, cogs, grossProfit, netProfit, roi, profitMargin⟩

/-- Function `handleAddSale` at `src/App.tsx:286-295`.  `newId` models the generated
`sale-${Date.now()}` id and `newDate` models `new Date().toISOString()`;
`amount = sale.quantity * settings.watchPrice` uses the price in effect at
creation time. -/
def handleAddSale (s : SettingsType) (sale : SaleData) (newId newDate : String) :
    Transaction :=
  { id := newId, date := newDate, amount := (sale.quantity : ℚ) * s.watchPrice, quantity := sale.quantity, description := sale.description }

/-- Outcome of `SaleModal.handleSubmit`: which branch ran. -/
inductive SaleSubmitResult where
  | invalidQuantity
  | insufficientInventory
  | added
deriving DecidableEq

/-- Function `SaleModal.handleSubmit` (src/App.tsx:109-120) composed with the
`onAddSale` callback `handleAddSale` (src/App.tsx:286-295).  `numQuantity`
models the result of `parseInt(quantity, 10)` (`none` for `NaN`); the
`inventory` prop is the derived `inventory` of the current state, as wired
at src/App.tsx:362.  Returns the transactions list after the call together
with the branch taken: on a validation failure only `setError` runs, so the
list is returned untouched. -/
def saleModalSubmit (s : SettingsType) (txs : List Transaction)
    (numQuantity : Option Int) (notes : String) (newId newDate : String) :
    List Transaction × SaleSubmitResult :=
  match numQuantity with
  | none => (txs, .invalidQuantity)
  | some n =>
    if n ≤ 0 then (txs, .invalidQuantity)
    else if inventory s txs < n then (txs, .insufficientInventory)
    else (txs ++ [handleAddSale s { quantity := n, description := if notes = "" then "Watch Sale" else notes } newId newDate], .added)

/-- Outcome of `EditLogModal.handleSubmit`: which branch ran, and the item
passed to `onSave` when saving succeeds. -/
inductive EditOutcome where
  | invalidDate
  | invalidQuantity
  | invalidAmount
  | emptyDescription
  | saved (item : CombinedLogItem)
deriving DecidableEq

/-- The amount carried by a `saved` outcome, if any. -/
def EditOutcome.savedAmount : EditOutcome → Option ℚ
  | .saved (.sale tx) => some tx.amount
  | .saved (.expense ex) => some ex.amount
  | _ => none

/-- Function `EditLogModal.handleSubmit` (src/App.tsx:214-231).  `dateParse` models
`Date.parse(date)` (`none` for `NaN`; the source's falsy test
`!Date.parse(date)` also rejects a parse result of exactly `0`), `isoDate`
models `new Date(date).toISOString()`, and `numQuantity`/`numAmount` model
`parseInt`/`parseFloat` of the form fields.  `watchPrice` is the prop wired
from the *current* settings at src/App.tsx:365. -/
def editLogSubmit (logItem : CombinedLogItem) (dateParse : Option Int)
    (isoDate : String) (description : String) (numQuantity : Option Int)
    (numAmount : Option ℚ) (watchPrice : ℚ) : EditOutcome :=
  if dateParse = none ∨ dateParse = some 0 then .invalidDate
  else
    match logItem with
    | .sale tx =>
      match numQuantity with
      | none => .invalidQuantity
      | some n =>
        if n ≤ 0 then .invalidQuantity
        else .saved (.sale { tx with date := isoDate, description := description, quantity := n, amount := (n : ℚ) * watchPrice })
    | .expense ex =>
      match numAmount with
      | none => .invalidAmount
      | some a =>
        if a ≤ 0 then .invalidAmount
        else if jsTrim description = "" then .emptyDescription
        else .saved (.expense { ex with date := isoDate, description := description, amount := a })

/-- A point of the `chartData` memo (src/App.tsx:342-358); the source's
field names are `name`, `Sales`, `Profit`. -/
structure ChartPoint where
  name : String
  sales : ℚ
  profit : ℚ
deriving DecidableEq

/-- The Sale `amount` a log item contributes to `cumulativeSales`
(an Expense contributes nothing). -/
def saleAmount : CombinedLogItem → ℚ
  | .sale tx => tx.amount
  | .expense _ => 0

/-- The `forEach` loop of `chartData` (src/App.tsx:348-356): one output
point per entry, threading `cumulativeSales` and `cumulativeProfit`.
`fmtDate` models `new Date(d).toLocaleDateString()`. -/
def chartPoints (watchCost : ℚ) (fmtDate : String → String) :
    ℚ → ℚ → List CombinedLogItem → List ChartPoint
  | _, _, [] => []
  | cs, cp, .sale tx :: rest =>
    ⟨fmtDate tx.date, cs + tx.amount, cp + (tx.amount - (tx.quantity : ℚ) * watchCost)⟩ ::
      chartPoints watchCost fmtDate (cs + tx.amount)
        (cp + (tx.amount - (tx.quantity : ℚ) * watchCost)) rest
  | cs, cp, .expense ex :: rest =>
    ⟨fmtDate ex.date, cs, cp - ex.amount⟩ ::
      chartPoints watchCost fmtDate cs (cp - ex.amount) rest

/-- The `chartData` memo (src/App.tsx:342-358): `[...transactions,
...expenses]` sorted by date ascending (a stable sort, as ECMAScript
requires; `dateTime` models `new Date(d).getTime()`), prefixed by the
synthetic origin point `{name: 'Start', Sales: 0, Profit:
-initialInvestment}`. -/
def chartData (dateTime : String → ℚ) (fmtDate : String → String)
    (s : SettingsType) (txs : List Transaction) (exps : List Expense) :
    List ChartPoint :=
  let chronologicalLog :=
    (txs.map CombinedLogItem.sale ++ exps.map CombinedLogItem.expense).mergeSort
      (fun a b => decide (dateTime a.date ≤ dateTime b.date))
  ⟨"Start", 0, -s.initialInvestment⟩ ::
    chartPoints s.watchCost fmtDate 0 (-s.initialInvestment) chronologicalLog

end FinanceTracker

namespace ProductModal

/-- The validated fields of the `formData` state of `ProductModal`
(src/ProductModal.tsx:84-93); `color` and `icon` carry no validation and
are omitted. -/
structure FormData where
  name : String
  description : String
  initialInvestment : ℚ
  unitCost : ℚ
  sellingPrice : ℚ
  initialUnits : Int
deriving DecidableEq

/-- Function `validateForm` (src/ProductModal.tsx:115-148), as the list of keys of
the `newErrors` record.  The two `sellingPrice` checks write the same
record key, so that key appears at most once.  Validation passes iff the
list is empty (`Object.keys(newErrors).length === 0`). -/
def validateForm (f : FormData) : List String :=
  (if jsTrim f.name = "" then ["name"] else []) ++
  (if jsTrim f.description = "" then ["description"] else []) ++
  (if f.initialInvestment ≤ 0 then ["initialInvestment"] else []) ++
  (if f.unitCost ≤ 0 then ["unitCost"] else []) ++
  (if f.sellingPrice ≤ 0 ∨ f.sellingPrice ≤ f.unitCost then ["sellingPrice"] else []) ++
  (if f.initialUnits ≤ 0 then ["initialUnits"] else [])

end ProductModal

namespace Sheets

/-- Fields shared by the services' `Transaction` and `Expense`
(src/services/googleSheetsService.ts:1-20). -/
structure EntryBase where
  id : String
  date : String
  amount : ℚ
  description : String
  productId : String
  productName : String
deriving DecidableEq

/-- The union `LogEntry = Transaction | Expense` of the services; a sale additionally
carries an integer `quantity`. -/
inductive LogEntry where
  | sale (base : EntryBase) (quantity : Int)
  | expense (base : EntryBase)
deriving DecidableEq

/-- The shared fields of either variant. -/
def LogEntry.base : LogEntry → EntryBase
  | .sale b _ => b
  | .expense b => b

/-- The `type` discriminator string. -/
def LogEntry.typeName : LogEntry → String
  | .sale _ _ => "sale"
  | .expense _ => "expense"

/-- Whether the entry is the `expense` variant. -/
def LogEntry.isExpense : LogEntry → Bool
  | .sale _ _ => false
  | .expense _ => true

/-- The quantity of a sale entry, `none` for an expense. -/
def LogEntry.quantityOf : LogEntry → Option Int
  | .sale _ q => some q
  | .expense _ => none

/-- Host-environment primitives used by the services, uninterpreted:
`parseFloat`/`parseInt` return `none` for `NaN`; `dateParse` is
`new Date(str)`'s time value, `none` for an invalid date; `isoOfTime` is
`Date.prototype.toISOString` on a valid time; `fmtDate` is
`new Date(str).toLocaleString()`; `showNum` is `Number.prototype.toString`;
`freshId n` is the generated ``imported-${Date.now()}-${Math.random()}`` id
for the `n`-th data row. -/
structure JsEnv where
  parseFloat : String → Option ℚ
  parseInt : String → Option Int
  dateParse : String → Option Int
  isoOfTime : Int → String
  fmtDate : String → String
  showNum : ℚ → String
  freshId : Nat → String

/-- JavaScript `x || d` for `x : string | undefined`: `d` when `x` is
`undefined` or the empty string (falsy), else `x`. -/
def jsOr (c : Option String) (d : String) : String :=
  match c with
  | some str => if str = "" then d else str
  | none => d

/-- One iteration of the `rows.map` callback of `readAllData`
(src/services/googleSheetsService.ts:188-212; identical at
src/services/simpleGoogleSheetsService.ts:143-167).  Array destructuring
past the row's end yields `undefined` (`row.get? k = none`).
`new Date(date).toISOString()` throws a `RangeError` when the date cell is
missing or unparseable — modelled as `.error ()`.  `parseFloat(amount) || 0`
is `.getD 0` (a `0` parse is already `0`); `parseInt(quantity) || 1` maps
both `NaN` and `0` to `1`. -/
def convertRow (env : JsEnv) (idx : Nat) (row : List String) :
    Except Unit LogEntry :=
  match (row.get? 1).bind env.dateParse with
  | none => .error ()
  | some t =>
    let base : EntryBase := { id := jsOr (row.get? 0) (env.freshId idx), date := env.isoOfTime t, amount := ((row.get? 3).bind env.parseFloat).getD 0, description := jsOr (row.get? 5) "", productId := jsOr (row.get? 6) "", productName := jsOr (row.get? 7) "" }
    if row.get? 2 = some "sale" then
      .ok (.sale base (match (row.get? 4).bind env.parseInt with | some n => if n = 0 then 1 else n | none => 1))
    else
      .ok (.expense base)

/-- The `dataRows.map(...)` of `readAllData`: JavaScript's `map` aborts at
the first callback that throws, so the whole conversion is `Except`. -/
def convertRows (env : JsEnv) (idx : Nat) :
    List (List String) → Except Unit (List LogEntry)
  | [] => .ok []
  | r :: rs =>
    match convertRow env idx r with
    | .error e => .error e
    | .ok entry =>
      match convertRows env (idx + 1) rs with
      | .error e => .error e
      | .ok rest => .ok (entry :: rest)

/-- Function `readAllData` (src/services/googleSheetsService.ts:168-220;
src/services/simpleGoogleSheetsService.ts:123-175): skip the header row
(`rows.slice(1)`), convert each row; the surrounding `try`/`catch` turns
any thrown conversion error into the empty result.  The configuration gate
and the HTTP fetch are outside the model: `rows` is the fetched
`data.values`. -/
def readAllData (env : JsEnv) (rows : List (List String)) : List LogEntry :=
  match convertRows env 0 (rows.drop 1) with
  | .ok entries => entries
  | .error _ => []

/-- The remote row-store (the spreadsheet's `Sheet1`): the ordered list of
its rows.  `clear` empties it; `append` adds rows at the end. -/
abbrev RemoteStore := List (List String)

/-- Function `clearSheet` (src/services/googleSheetsService.ts:80-89). -/
def clearSheet (_s : RemoteStore) : RemoteStore := []

/-- Function `appendRows` (src/services/googleSheetsService.ts:92-108), assuming the
request succeeds. -/
def appendRows (s : RemoteStore) (rows : List (List String)) : RemoteStore :=
  s ++ rows

/-- The header row written by `initializeSpreadsheet`
(src/services/googleSheetsService.ts:63-65). -/
def headers : List String :=
  ["ID", "Date", "Type", "Amount", "Quantity", "Description", "Product ID", "Product Name"]

/-- Function `initializeSpreadsheet` (src/services/googleSheetsService.ts:56-77):
clear existing data, then append the header row. -/
def initializeSpreadsheet (s : RemoteStore) : RemoteStore :=
  appendRows (clearSheet s) [headers]

/-- The `Quantity` cell of `logEntryToRow`: the quantity for a sale, the
empty string for an expense. -/
def quantityCell (env : JsEnv) : LogEntry → String
  | .sale _ q => env.showNum (q : ℚ)
  | .expense _ => ""

/-- Function `logEntryToRow` (src/services/googleSheetsService.ts:111-122). -/
def logEntryToRow (env : JsEnv) (e : LogEntry) : List String :=
  [e.base.id, env.fmtDate e.base.date, e.typeName, env.showNum e.base.amount, quantityCell env e, e.base.description, e.base.productId, e.base.productName]

/-- Function `syncAllData` (src/services/googleSheetsService.ts:143-165), the
`fullSync` of the spec: reinitialize (clear + headers), then append every
entry's row in one batch when there are any.  Failure-free execution of
the two remote operations is assumed; the configuration gate is outside
the model. -/
def syncAllData (env : JsEnv) (s : RemoteStore) (allEntries : List LogEntry) :
    RemoteStore :=
  let s1 := initializeSpreadsheet s
  if allEntries.length > 0 then appendRows s1 (allEntries.map (logEntryToRow env))
  else s1

/-- A concrete host environment for evaluating the model: only the string
"2024-01-01" parses as a date. -/
def sampleEnv : JsEnv :=
  { parseFloat := fun _ => none, parseInt := fun _ => none, dateParse := fun str => if str = "2024-01-01" then some 1704067200000 else none, isoOfTime := fun _ => "2024-01-01T00:00:00.000Z", fmtDate := fun str => str, showNum := fun _ => "0", freshId := fun n => "imported-" ++ toString n }

/-- A concrete remote sheet whose first data row has an unparseable date
while the second data row's date parses. -/
def sampleRowsBadDate : RemoteStore :=
  [headers, ["e1", "not-a-date", "expense", "10", "", "rent", "p1", "Watches"], ["e2", "2024-01-01", "expense", "20", "", "ads", "p1", "Watches"]]

/-- A concrete remote sheet with a single data row whose Date parses but
whose every other field is missing or malformed. -/
def sampleRowsMalformed : RemoteStore :=
  [headers, ["", "2024-01-01", "", "not-a-number", "", "", "", ""]]

end Sheets

/-- Folding `acc + f x` from `c` is `c` plus the sum of the mapped list
(shape of every `reduce((acc, x) => acc + f(x), 0)` in the source). -/
theorem foldl_add_map {α M : Type} [AddMonoid M] (f : α → M) :
    ∀ (l : List α) (c : M), l.foldl (fun acc x => acc + f x) c = c + (l.map f).sum
  | [], c => by simp
  | a :: l, c => by
    rw [List.foldl_cons, foldl_add_map f l (c + f a), List.map_cons, List.sum_cons,
      add_assoc]

/-- C1: for every settings configuration and every list of sales and
expenses, the derived stats satisfy
`netProfit = totalRevenue - cogs - totalExpenses - initialInvestment`
exactly, where `totalRevenue` is the sum of Sale amounts, `totalExpenses`
is the sum of Expense amounts, and `cogs = unitsSold * current unitCost`
(`unitsSold` being the derived `watchesSold` stat). -/
theorem netProfit_eq_revenue_sub_cogs_sub_expenses_sub_investment
    (s : FinanceTracker.SettingsType) (txs : List FinanceTracker.Transaction)
    (exps : List FinanceTracker.Expense) :
    (FinanceTracker.financialData s txs exps).netProfit =
      (FinanceTracker.financialData s txs exps).totalSales -
        (FinanceTracker.financialData s txs exps).cogs -
        (FinanceTracker.financialData s txs exps).totalExpenses -
        s.initialInvestment ∧
    (FinanceTracker.financialData s txs exps).totalSales =
      (txs.map (fun tx => tx.amount)).sum ∧
    (FinanceTracker.financialData s txs exps).totalExpenses =
      (exps.map (fun ex => ex.amount)).sum ∧
    (FinanceTracker.financialData s txs exps).cogs =
      (FinanceTracker.watchesSold s txs : ℚ) * s.watchCost := by
  refine ⟨rfl, ?_, ?_, rfl⟩
  · simp [FinanceTracker.financialData, foldl_add_map]
  · simp [FinanceTracker.financialData, foldl_add_map]

/-- C7: the stats derivation never divides by zero: `roi` is
`netProfit / initialInvestment * 100` when `initialInvestment > 0` and `0`
when `initialInvestment = 0` regardless of profit; `profitMargin` is
`grossProfit / totalRevenue * 100` when `totalRevenue > 0` and `0`
otherwise. -/
theorem roi_profitMargin_guard_division
    (s : FinanceTracker.SettingsType) (txs : List FinanceTracker.Transaction)
    (exps : List FinanceTracker.Expense) :
    (0 < s.initialInvestment →
      (FinanceTracker.financialData s txs exps).roi =
        (FinanceTracker.financialData s txs exps).netProfit /
          s.initialInvestment * 100) ∧
    (s.initialInvestment = 0 →
      (FinanceTracker.financialData s txs exps).roi = 0) ∧
    (0 < (FinanceTracker.financialData s txs exps).totalSales →
      (FinanceTracker.financialData s txs exps).profitMargin =
        (FinanceTracker.financialData s txs exps).grossProfit /
          (FinanceTracker.financialData s txs exps).totalSales * 100) ∧
    (¬ 0 < (FinanceTracker.financialData s txs exps).totalSales →
      (FinanceTracker.financialData s txs exps).profitMargin = 0) := by
  refine ⟨fun h => ?_, fun h => ?_, fun h => ?_, fun h => ?_⟩ <;>
    simp [FinanceTracker.financialData] at h ⊢ <;> simp [h]

/-- Witness for `roi_profitMargin_guard_division` at the settings
`{initialInvestment := 1800, watchCost := 30, watchPrice := 600}` with an
empty ledger. -/
theorem roi_profitMargin_guard_division_witness :
    (FinanceTracker.financialData ⟨1800, 30, 600⟩ [] []).roi =
      (FinanceTracker.financialData ⟨1800, 30, 600⟩ [] []).netProfit / 1800 * 100 ∧
    (FinanceTracker.financialData ⟨1800, 30, 600⟩ [] []).profitMargin = 0 := by
  have h := roi_profitMargin_guard_division ⟨1800, 30, 600⟩ [] []
  exact ⟨h.1 (by norm_num), h.2.2.2 (by simp [FinanceTracker.financialData])⟩

/-- C8: with a valid configuration (`watchCost > 0`), the derived
`inventory` is `initialWatches - watchesSold` with no clamping: when
`watchesSold` exceeds `initialWatches` the result is negative and returned
as-is. -/
theorem inventory_no_clamp
    (s : FinanceTracker.SettingsType) (txs : List FinanceTracker.Transaction)
    (h : 0 < s.watchCost) :
    FinanceTracker.inventory s txs =
      FinanceTracker.initialWatches s txs - FinanceTracker.watchesSold s txs ∧
    (FinanceTracker.initialWatches s txs < FinanceTracker.watchesSold s txs →
      FinanceTracker.inventory s txs < 0) := by
  have hne : ¬ s.watchCost ≤ 0 := not_le.mpr h
  have h1 : FinanceTracker.inventory s txs =
      FinanceTracker.initialWatches s txs - FinanceTracker.watchesSold s txs := by
    simp [FinanceTracker.inventory, FinanceTracker.initialWatches,
      FinanceTracker.watchesSold, FinanceTracker.inventoryTriple, hne]
  exact ⟨h1, fun hlt => by omega⟩

/-- Witness for `inventory_no_clamp`: settings
`{initialInvestment := 1800, watchCost := 30, watchPrice := 600}` give 60
initial watches; a single sale of 100 drives inventory to `-40`. -/
theorem inventory_no_clamp_witness :
    FinanceTracker.inventory ⟨1800, 30, 600⟩ [⟨"s1", "d1", 60000, 100, "bulk"⟩] = -40 ∧
    FinanceTracker.inventory ⟨1800, 30, 600⟩ [⟨"s1", "d1", 60000, 100, "bulk"⟩] < 0 := by
  have h := inventory_no_clamp ⟨1800, 30, 600⟩ [⟨"s1", "d1", 60000, 100, "bulk"⟩]
    (by norm_num)
  have hiw : FinanceTracker.initialWatches ⟨1800, 30, 600⟩
      [⟨"s1", "d1", 60000, 100, "bulk"⟩] = 60 := by
    simp [FinanceTracker.initialWatches, FinanceTracker.inventoryTriple]
    norm_num [Int.floor_eq_iff]
  have hws : FinanceTracker.watchesSold ⟨1800, 30, 600⟩
      [⟨"s1", "d1", 60000, 100, "bulk"⟩] = 100 := by
    simp [FinanceTracker.watchesSold, FinanceTracker.inventoryTriple]
    norm_num
  exact ⟨by rw [h.1, hiw, hws]; norm_num, h.2 (by rw [hiw, hws]; norm_num)⟩

/-- C4: for every state and every Sale whose (positive, parsed) quantity
exceeds the inventory derived from the current state at the moment of the
call, the submit fails on the insufficient-inventory branch and the stored
transactions list is returned identical — entry count and every stored
entry unchanged. -/
theorem addSale_insufficient_inventory_rejected
    (s : FinanceTracker.SettingsType) (txs : List FinanceTracker.Transaction)
    (n : Int) (notes newId newDate : String)
    (hq : 0 < n) (hinv : FinanceTracker.inventory s txs < n) :
    FinanceTracker.saleModalSubmit s txs (some n) notes newId newDate =
      (txs, FinanceTracker.SaleSubmitResult.insufficientInventory) := by
  simp [FinanceTracker.saleModalSubmit, not_le.mpr hq, hinv]

/-- Witness for `addSale_insufficient_inventory_rejected`: with the default
settings the empty ledger has inventory 60, so a sale of 61 is rejected and
the ledger stays empty. -/
theorem addSale_insufficient_inventory_rejected_witness :
    FinanceTracker.inventory ⟨1800, 30, 600⟩ [] < 61 ∧
    FinanceTracker.saleModalSubmit ⟨1800, 30, 600⟩ [] (some 61) "" "i" "d" =
      ([], FinanceTracker.SaleSubmitResult.insufficientInventory) := by
  have hinv : FinanceTracker.inventory ⟨1800, 30, 600⟩ [] = 60 := by
    simp [FinanceTracker.inventory, FinanceTracker.inventoryTriple]
    norm_num [Int.floor_eq_iff]
  exact ⟨by rw [hinv]; norm_num,
    addSale_insufficient_inventory_rejected ⟨1800, 30, 600⟩ [] 61 "" "i" "d"
      (by norm_num) (by rw [hinv]; norm_num)⟩

/-- C5: a Sale is created with `amount = quantity * watchPrice`-at-creation
(`handleAddSale`), while editing its quantity recomputes `amount` as the
new quantity times the watch price passed to the edit modal — the *current*
price — and when the price changed and the new quantity is nonzero the two
computations give different values. -/
theorem editSale_recomputes_amount_at_current_price
    (s0 : FinanceTracker.SettingsType) (priceNow : ℚ)
    (sale : FinanceTracker.SaleData) (newId newDate : String)
    (dateParse : Option Int) (isoDate desc : String) (n : Int)
    (hd : ¬ (dateParse = none ∨ dateParse = some 0)) (hn : 0 < n) :
    (FinanceTracker.handleAddSale s0 sale newId newDate).amount =
      (sale.quantity : ℚ) * s0.watchPrice ∧
    (FinanceTracker.editLogSubmit
        (.sale (FinanceTracker.handleAddSale s0 sale newId newDate))
        dateParse isoDate desc (some n) none priceNow).savedAmount =
      some ((n : ℚ) * priceNow) ∧
    (s0.watchPrice ≠ priceNow → (n : ℚ) * priceNow ≠ (n : ℚ) * s0.watchPrice) := by
  refine ⟨rfl, ?_, ?_⟩
  · simp [FinanceTracker.editLogSubmit, hd, not_le.mpr hn,
      FinanceTracker.EditOutcome.savedAmount]
  · intro hne heq
    have hn0 : (n : ℚ) ≠ 0 := by
      exact_mod_cast Int.ne_of_gt hn
    exact hne ((mul_left_cancel₀ hn0 heq).symm)

/-- Witness for `editSale_recomputes_amount_at_current_price`: a sale of 2
at price 600 (amount 1200), edited to quantity 3 after the price moved to
700, is saved with amount 2100 = 3 * 700, not 3 * 600. -/
theorem editSale_recomputes_amount_at_current_price_witness :
    (FinanceTracker.handleAddSale ⟨1800, 30, 600⟩ ⟨2, "x"⟩ "i" "d").amount = 1200 ∧
    (FinanceTracker.editLogSubmit
        (.sale (FinanceTracker.handleAddSale ⟨1800, 30, 600⟩ ⟨2, "x"⟩ "i" "d"))
        (some 5) "d2" "x" (some 3) none 700).savedAmount = some 2100 ∧
    (2100 : ℚ) ≠ 3 * 600 := by
  have h := editSale_recomputes_amount_at_current_price ⟨1800, 30, 600⟩ 700
    ⟨2, "x"⟩ "i" "d" (some 5) "d2" "x" 3 (by simp) (by norm_num)
  refine ⟨by rw [h.1]; norm_num, by rw [h.2.1]; norm_num, ?_⟩
  have h3 := h.2.2 (by norm_num)
  norm_num at h3 ⊢

/-- Helper: an `if`-guarded singleton list is empty iff the guard fails. -/
theorem if_singleton_eq_nil {α : Type} {c : Prop} [Decidable c] (a : α) :
    ((if c then [a] else []) = []) ↔ ¬ c := by
  split_ifs with h <;> simp [h]

/-- Membership in an `if`-guarded singleton list. -/
theorem mem_if_singleton {α : Type} {c : Prop} [Decidable c] (a b : α) :
    (a ∈ (if c then [b] else [])) ↔ (a = b ∧ c) := by
  split_ifs with h <;> simp [h]

/-- Counterexample to C6 as stated: the configuration
`{name := "Watches", description := "Luxury watches", initialInvestment := 0,
unitCost := 1, sellingPrice := 2, initialUnits := 5}` satisfies every
constraint the claim lists (`sellingPrice > unitCost`, `unitCost > 0`,
`initialUnits > 0`, `initialInvestment >= 0`, non-empty name and
description), yet `validateForm` rejects it, reporting the
`initialInvestment` field: the source requires `initialInvestment > 0`. -/
theorem validateForm_rejects_zero_investment :
    ProductModal.validateForm ⟨"Watches", "Luxury watches", 0, 1, 2, 5⟩ =
      ["initialInvestment"] ∧
    (0 : ℚ) ≥ 0 ∧ (0 : ℚ) < 1 ∧ (1 : ℚ) < 2 ∧ (0 : Int) < 5 ∧
    "Watches" ≠ "" ∧ "Luxury watches" ≠ "" := by
  refine ⟨?_, by norm_num, by norm_num, by norm_num, by norm_num, by decide, by decide⟩
  have h1 : jsTrim "Watches" = "Watches" := by decide
  have h2 : jsTrim "Luxury watches" = "Luxury watches" := by decide
  simp [ProductModal.validateForm, h1, h2]

/-- C6, amended: validation passes exactly when the name and
description are non-blank after trimming, `initialInvestment > 0` (not
merely `>= 0`), `unitCost > 0`, `sellingPrice > unitCost` and
`initialUnits > 0`; and when it fails, the reported field list contains
every violated field, not just the first. -/
theorem validateForm_characterization (f : ProductModal.FormData) :
    (ProductModal.validateForm f = [] ↔
      (jsTrim f.name ≠ "" ∧ jsTrim f.description ≠ "" ∧ 0 < f.initialInvestment ∧
        0 < f.unitCost ∧ f.unitCost < f.sellingPrice ∧ 0 < f.initialUnits)) ∧
    ("name" ∈ ProductModal.validateForm f ↔ jsTrim f.name = "") ∧
    ("description" ∈ ProductModal.validateForm f ↔ jsTrim f.description = "") ∧
    ("initialInvestment" ∈ ProductModal.validateForm f ↔ f.initialInvestment ≤ 0) ∧
    ("unitCost" ∈ ProductModal.validateForm f ↔ f.unitCost ≤ 0) ∧
    ("sellingPrice" ∈ ProductModal.validateForm f ↔
      (f.sellingPrice ≤ 0 ∨ f.sellingPrice ≤ f.unitCost)) ∧
    ("initialUnits" ∈ ProductModal.validateForm f ↔ f.initialUnits ≤ 0) := by
  refine ⟨?_, ?_, ?_, ?_, ?_, ?_, ?_⟩
  · simp only [ProductModal.validateForm, List.append_eq_nil, if_singleton_eq_nil]
    constructor
    · rintro ⟨⟨⟨⟨⟨h1, h2⟩, h3⟩, h4⟩, h5⟩, h6⟩
      rw [not_le] at h3 h4 h6
      rw [not_or, not_le, not_le] at h5
      exact ⟨h1, h2, h3, h4, h5.2, h6⟩
    · rintro ⟨h1, h2, h3, h4, h5, h6⟩
      refine ⟨⟨⟨⟨⟨h1, h2⟩, not_le.mpr h3⟩, not_le.mpr h4⟩, ?_⟩, not_le.mpr h6⟩
      rw [not_or, not_le, not_le]
      exact ⟨lt_trans h4 h5, h5⟩
  all_goals
    simp only [ProductModal.validateForm, List.mem_append, mem_if_singleton]
    simp

/-- Helper: one `syncAllData` call leaves the remote store in the canonical
state — header row followed by exactly the input entries' rows — regardless
of what the store held before. -/
theorem syncAllData_canonical (env : Sheets.JsEnv) (s : Sheets.RemoteStore)
    (entries : List Sheets.LogEntry) :
    Sheets.syncAllData env s entries =
      Sheets.headers :: entries.map (Sheets.logEntryToRow env) := by
  unfold Sheets.syncAllData Sheets.initializeSpreadsheet Sheets.appendRows
    Sheets.clearSheet
  cases entries with
  | nil => simp
  | cons e rest => simp

/-- C2: the full sync is idempotent — for a fixed input, a second consecutive
`syncAllData` leaves the remote row-store in the same observable state as
one call (clear, header row, then the data rows, no duplication). -/
theorem fullSync_idempotent (env : Sheets.JsEnv) (s : Sheets.RemoteStore)
    (entries : List Sheets.LogEntry) :
    Sheets.syncAllData env (Sheets.syncAllData env s entries) entries =
      Sheets.syncAllData env s entries ∧
    Sheets.syncAllData env s entries =
      Sheets.headers :: entries.map (Sheets.logEntryToRow env) := by
  exact ⟨by rw [syncAllData_canonical, syncAllData_canonical],
    syncAllData_canonical env s entries⟩

/-- Helper for C9: prefixing `chartPoints` with any point whose `sales`
component equals the running `cumulativeSales`, the last point's `sales` is
that value plus the sale amounts of the remaining log. -/
theorem chartPoints_getLastD_sales (wc : ℚ) (fmtDate : String → String)
    (l : List FinanceTracker.CombinedLogItem) :
    ∀ (p : FinanceTracker.ChartPoint) (cs cp : ℚ) (d : FinanceTracker.ChartPoint),
      p.sales = cs →
      ((p :: FinanceTracker.chartPoints wc fmtDate cs cp l).getLastD d).sales =
        cs + (l.map FinanceTracker.saleAmount).sum := by
  induction l with
  | nil =>
    intro p cs cp d hp
    simp [FinanceTracker.chartPoints, hp]
  | cons item rest ih =>
    intro p cs cp d hp
    cases item with
    | sale tx =>
      have h := ih ⟨fmtDate tx.date, cs + tx.amount, cp + (tx.amount - (tx.quantity : ℚ) * wc)⟩
        (cs + tx.amount) (cp + (tx.amount - (tx.quantity : ℚ) * wc)) p rfl
      rw [List.getLastD_cons] at h
      simp only [FinanceTracker.chartPoints, List.getLastD_cons]
      rw [h]
      simp [FinanceTracker.saleAmount]
      ring
    | expense ex =>
      have h := ih ⟨fmtDate ex.date, cs, cp - ex.amount⟩ cs (cp - ex.amount) p rfl
      rw [List.getLastD_cons] at h
      simp only [FinanceTracker.chartPoints, List.getLastD_cons]
      rw [h]
      simp [FinanceTracker.saleAmount]

/-- C9: the final point of `chartData` has cumulative sales equal to
`financialData`'s `totalSales`, although the series walks the log in
date-ascending order while `totalSales` folds over storage order; for the
empty ledger the chart is exactly the synthetic origin point with sales 0. -/
theorem chart_final_sales_eq_totalSales (dateTime : String → ℚ)
    (fmtDate : String → String) (s : FinanceTracker.SettingsType)
    (txs : List FinanceTracker.Transaction) (exps : List FinanceTracker.Expense)
    (d : FinanceTracker.ChartPoint) :
    ((FinanceTracker.chartData dateTime fmtDate s txs exps).getLastD d).sales =
      (FinanceTracker.financialData s txs exps).totalSales ∧
    FinanceTracker.chartData dateTime fmtDate s [] [] =
      [⟨"Start", 0, -s.initialInvestment⟩] := by
  constructor
  · unfold FinanceTracker.chartData
    rw [chartPoints_getLastD_sales s.watchCost fmtDate _ _ 0 (-s.initialInvestment) d rfl]
    have hperm :
        ((txs.map FinanceTracker.CombinedLogItem.sale ++
            exps.map FinanceTracker.CombinedLogItem.expense).mergeSort
          (fun a b => decide (dateTime a.date ≤ dateTime b.date))).Perm
        (txs.map FinanceTracker.CombinedLogItem.sale ++
          exps.map FinanceTracker.CombinedLogItem.expense) :=
      List.mergeSort_perm _ _
    rw [((hperm.map FinanceTracker.saleAmount).sum_eq : _)]
    simp [FinanceTracker.financialData, foldl_add_map, List.map_map,
      Function.comp_def, FinanceTracker.saleAmount]
  · simp [FinanceTracker.chartData, FinanceTracker.chartPoints]

/-- Helper: `convertRows` propagates the error of any row whose date cell
is missing or unparseable. -/
theorem convertRows_error_of_bad_date (env : Sheets.JsEnv) :
    ∀ (l : List (List String)) (idx : Nat),
      (∃ r ∈ l, (r.get? 1).bind env.dateParse = none) →
      Sheets.convertRows env idx l = .error () := by
  intro l
  induction l with
  | nil =>
    rintro idx ⟨r, hr, _⟩
    cases hr
  | cons a rest ih =>
    rintro idx ⟨r, hr, hn⟩
    rcases List.mem_cons.mp hr with rfl | hmem
    · simp only [Sheets.convertRows, Sheets.convertRow, hn]
    · cases hca : Sheets.convertRow env idx a with
      | error e =>
        cases e
        simp only [Sheets.convertRows, hca]
      | ok entry =>
        simp only [Sheets.convertRows, hca]
        rw [ih (idx + 1) ⟨r, hmem, hn⟩]

/-- Counterexample to C3 as stated: on a sheet whose first data row has an
unparseable date and whose second data row is well-formed (its date
parses), `readAllData` returns the empty list — neither a fallback
timestamp for the bad row nor the well-formed row survives the import. -/
theorem readAll_bad_date_drops_all_rows :
    Sheets.readAllData Sheets.sampleEnv Sheets.sampleRowsBadDate = [] ∧
    (Sheets.sampleRowsBadDate.drop 1).length = 2 ∧
    (((Sheets.sampleRowsBadDate.get? 2).bind
      (fun r => (r.get? 1).bind Sheets.sampleEnv.dateParse))).isSome = true := by
  refine ⟨rfl, rfl, rfl⟩

/-- C3, amended: the import never throws past its boundary, but a row with
an unparseable (or missing) Date makes the whole import come back empty:
the thrown `RangeError` is caught and `readAllData` returns `[]`, so the
bad row gets no fallback timestamp and no other row is imported either. -/
theorem readAll_unparseable_date_returns_empty (env : Sheets.JsEnv)
    (rows : List (List String))
    (h : ∃ r ∈ rows.drop 1, (r.get? 1).bind env.dateParse = none) :
    Sheets.readAllData env rows = [] := by
  unfold Sheets.readAllData
  rw [convertRows_error_of_bad_date env (rows.drop 1) 0 h]

/-- Witness for `readAll_unparseable_date_returns_empty` on the sample
sheet with a bad first data row. -/
theorem readAll_unparseable_date_returns_empty_witness :
    Sheets.readAllData Sheets.sampleEnv Sheets.sampleRowsBadDate = [] := by
  refine readAll_unparseable_date_returns_empty Sheets.sampleEnv
    Sheets.sampleRowsBadDate ⟨["e1", "not-a-date", "expense", "10", "", "rent", "p1", "Watches"], ?_, ?_⟩
  · simp [Sheets.sampleRowsBadDate]
  · rfl

/-- Helper: when a row's date cell parses, `convertRow` succeeds and the
produced entry defaults every malformed field: amount 0 when the Amount
cell is missing/non-numeric, a generated import id when the ID cell is
falsy, empty strings for missing text fields, `expense` for any Type other
than `'sale'`, and quantity 1 for a sale with missing/non-numeric
Quantity. -/
theorem convertRow_fields (env : Sheets.JsEnv) (idx : Nat) (r : List String)
    (hr : ((r.get? 1).bind env.dateParse).isSome) :
    ∃ e, Sheets.convertRow env idx r = .ok e ∧
      ((r.get? 3).bind env.parseFloat = none → e.base.amount = 0) ∧
      ((r.get? 0 = none ∨ r.get? 0 = some "") → e.base.id = env.freshId idx) ∧
      e.base.description = Sheets.jsOr (r.get? 5) "" ∧
      e.base.productId = Sheets.jsOr (r.get? 6) "" ∧
      e.base.productName = Sheets.jsOr (r.get? 7) "" ∧
      (r.get? 2 ≠ some "sale" → e.isExpense = true) ∧
      (r.get? 2 = some "sale" → (r.get? 4).bind env.parseInt = none →
        e.quantityOf = some 1) := by
  obtain ⟨t, ht⟩ := Option.isSome_iff_exists.mp hr
  by_cases hty : r.get? 2 = some "sale"
  · refine ⟨Sheets.LogEntry.sale { id := Sheets.jsOr (r.get? 0) (env.freshId idx), date := env.isoOfTime t, amount := ((r.get? 3).bind env.parseFloat).getD 0, description := Sheets.jsOr (r.get? 5) "", productId := Sheets.jsOr (r.get? 6) "", productName := Sheets.jsOr (r.get? 7) "" } (match (r.get? 4).bind env.parseInt with | some n => if n = 0 then 1 else n | none => 1), ?_, ?_, ?_, rfl, rfl, rfl, fun hc => absurd hty hc, ?_⟩
    · simp only [Sheets.convertRow, ht]
      rw [if_pos hty]
    · intro h3
      rw [List.get?_eq_getElem?] at h3
      simp [Sheets.LogEntry.base, h3]
    · rintro (h0 | h0) <;> rw [List.get?_eq_getElem?] at h0 <;>
        simp [Sheets.LogEntry.base, Sheets.jsOr, h0]
    · intro _ h4
      rw [List.get?_eq_getElem?] at h4
      simp [Sheets.LogEntry.quantityOf, h4]
  · refine ⟨Sheets.LogEntry.expense { id := Sheets.jsOr (r.get? 0) (env.freshId idx), date := env.isoOfTime t, amount := ((r.get? 3).bind env.parseFloat).getD 0, description := Sheets.jsOr (r.get? 5) "", productId := Sheets.jsOr (r.get? 6) "", productName := Sheets.jsOr (r.get? 7) "" }, ?_, ?_, ?_, rfl, rfl, rfl, fun _ => rfl, fun hc => absurd hc hty⟩
    · simp only [Sheets.convertRow, ht]
      rw [if_neg hty]
    · intro h3
      rw [List.get?_eq_getElem?] at h3
      simp [Sheets.LogEntry.base, h3]
    · rintro (h0 | h0) <;> rw [List.get?_eq_getElem?] at h0 <;>
        simp [Sheets.LogEntry.base, Sheets.jsOr, h0]

/-- Helper: when every row's date parses, `convertRows` succeeds and its
output is the row-wise `convertRow` image. -/
theorem convertRows_ok_of_dates (env : Sheets.JsEnv) :
    ∀ (l : List (List String)) (idx : Nat),
      (∀ r ∈ l, ((r.get? 1).bind env.dateParse).isSome) →
      ∃ es, Sheets.convertRows env idx l = .ok es ∧
        ∀ i r, l.get? i = some r →
          ∃ e, es.get? i = some e ∧ Sheets.convertRow env (idx + i) r = .ok e := by
  intro l
  induction l with
  | nil =>
    intro idx _
    refine ⟨[], rfl, ?_⟩
    intro i r h
    simp at h
  | cons a rest ih =>
    intro idx h
    obtain ⟨ea, hea, -⟩ := convertRow_fields env idx a (h a (List.mem_cons_self a rest))
    obtain ⟨es, hes, hidx⟩ := ih (idx + 1) (fun r hr => h r (List.mem_cons_of_mem a hr))
    refine ⟨ea :: es, by simp only [Sheets.convertRows, hea, hes], ?_⟩
    intro i r hir
    cases i with
    | zero =>
      have ha : a = r := by simpa using hir
      subst ha
      exact ⟨ea, rfl, by simpa using hea⟩
    | succ n =>
      obtain ⟨e, he1, he2⟩ := hidx n r (by simpa using hir)
      refine ⟨e, by simpa using he1, ?_⟩
      have harith : idx + (n + 1) = idx + 1 + n := by omega
      rw [harith]
      exact he2

/-- C10: when every data row's date parses (so the import succeeds at all),
`readAll` totalizes malformed fields with defaults: missing/non-numeric
Amount becomes 0, a falsy ID becomes the generated import id, missing
description/productId/productName become empty strings, any Type other
than `'sale'` imports as an Expense, and a sale row's missing/non-numeric
Quantity becomes 1. -/
theorem readAll_totalizes_malformed_fields (env : Sheets.JsEnv)
    (rows : List (List String))
    (h : ∀ r ∈ rows.drop 1, ((r.get? 1).bind env.dateParse).isSome) :
    ∀ i r, (rows.drop 1).get? i = some r →
      ∃ e, (Sheets.readAllData env rows).get? i = some e ∧
        ((r.get? 3).bind env.parseFloat = none → e.base.amount = 0) ∧
        ((r.get? 0 = none ∨ r.get? 0 = some "") → e.base.id = env.freshId i) ∧
        e.base.description = Sheets.jsOr (r.get? 5) "" ∧
        e.base.productId = Sheets.jsOr (r.get? 6) "" ∧
        e.base.productName = Sheets.jsOr (r.get? 7) "" ∧
        (r.get? 2 ≠ some "sale" → e.isExpense = true) ∧
        (r.get? 2 = some "sale" → (r.get? 4).bind env.parseInt = none →
          e.quantityOf = some 1) := by
  obtain ⟨es, hes, hidx⟩ := convertRows_ok_of_dates env (rows.drop 1) 0 h
  have hread : Sheets.readAllData env rows = es := by
    unfold Sheets.readAllData
    rw [hes]
  intro i r hir
  obtain ⟨e, he1, he2⟩ := hidx i r hir
  obtain ⟨e', he'ok, hp1, hp2, hp3, hp4, hp5, hp6, hp7⟩ :=
    convertRow_fields env (0 + i) r (h r (List.get?_mem hir))
  have hee : e' = e := by
    rw [he2] at he'ok
    exact (Except.ok.injEq _ _).mp he'ok.symm
  subst hee
  rw [Nat.zero_add] at hp2
  exact ⟨e', by rw [hread]; exact he1, hp1, hp2, hp3, hp4, hp5, hp6, hp7⟩

/-- Witness for `readAll_totalizes_malformed_fields` on the one-row sample
sheet whose row is entirely malformed except for its date. -/
theorem readAll_totalizes_malformed_fields_witness :
    ∃ e, (Sheets.readAllData Sheets.sampleEnv Sheets.sampleRowsMalformed).get? 0 =
        some e ∧
      e.base.amount = 0 ∧ e.base.id = "imported-0" ∧
      e.base.description = "" ∧ e.isExpense = true := by
  obtain ⟨e, h1, h2, h3, h4, -, -, h7, -⟩ :=
    readAll_totalizes_malformed_fields Sheets.sampleEnv Sheets.sampleRowsMalformed
      (by intro r hr; simp [Sheets.sampleRowsMalformed] at hr; subst hr; rfl)
      0 ["", "2024-01-01", "", "not-a-number", "", "", "", ""] rfl
  refine ⟨e, h1, h2 rfl, ?_, by simpa [Sheets.jsOr] using h4, h7 (by decide)⟩
  have := h3 (Or.inr rfl)
  simpa [Sheets.sampleEnv] using this
